import Mathlib

/-!
Verification of the gin-gorm-filter query-parameter filtering scope.

The development shallowly embeds `gin-gorm-filter.go`: struct fields with
their `gorm`/`filter` tags, the tag-driven column/param resolution (a model
of the Go regexps `column:(\w{1,}).*` and `param:(\w{1,}).*`), the
search/filter leaf builders, the expression collector, ordering and
pagination, and the `FilterByQuery` scope composer.  A `DB` value models the
gorm query under construction: `conds` is the list of top-level WHERE
conjuncts (successive `db.Where` calls AND together), `orders` the ORDER BY
entries, and `offset`/`limit` the pagination clause.

Strings are embedded as `List Char`.  Go's `int` is embedded as `Int`; the
one place a product can exceed 64 bits (the offset computation) wraps with
`wrap64`.

Definitions for the repository's current operator grammar, case-insensitive
search, and repeatable `filter` parameter are modelled from the spec (their
doc comments say so): that code is not present under `src/`, only its test
suite is.
-/

namespace GinGormFilter

abbrev Str := List Char

/-- Character class `\w` of Go's regexp package (ASCII letters, digits, `_`). -/
def isWordChar (c : Char) : Bool :=
  c.isAlpha || c.isDigit || c == '_'

/-- Boolean string-prefix test (`s` starts with `p`). -/
def strStarts : Str → Str → Bool
  | _, [] => true
  | [], _ :: _ => false
  | a :: s, b :: p => a == b && strStarts s p

/-- Go's `strings.Contains s sub`: `sub` occurs as a contiguous substring. -/
def containsStr (s sub : Str) : Bool :=
  if strStarts s sub then true
  else
    match s with
    | [] => false
    | _ :: t => containsStr t sub

/-- Leftmost match of the Go regexp `marker(\w{1,}).*` in `s`, returning the
first capture group: the maximal nonempty run of word characters right after
the first occurrence of the literal `marker` that is followed by at least one
word character.  Models `FindStringSubmatch` for `column:(\w{1,}).*`,
`param:(\w{1,}).*` and the dynamically built `<param>:(\w{1,}).*` (the
interpolated names consist of word characters only, so they are literal in
the pattern). -/
def findMarkerCapture (marker : Str) : Str → Option Str
  | [] => none
  | c :: t =>
    if strStarts (c :: t) marker && !(((c :: t).drop marker.length).takeWhile isWordChar).isEmpty then
      some (((c :: t).drop marker.length).takeWhile isWordChar)
    else findMarkerCapture marker t

/-- A reflected struct field: its Go name and the contents of its `gorm` and
`filter` struct tags (`field.Tag.Get "gorm"` / `field.Tag.Get "filter"`). -/
structure Field where
  name : Str
  gormTag : Str
  filterTag : Str

/-- gorm clause expressions as constructed by the package: comparison leaves
over a column name and a literal value, plus the variadic AND/OR composites
(`clause.And`, `clause.Or`).  `lowerLike` is the case-insensitive search
leaf `LOWER(column) LIKE value`. -/
inductive Expression where
  | eq (column : Str) (value : Str)
  | neq (column : Str) (value : Str)
  | gt (column : Str) (value : Str)
  | gte (column : Str) (value : Str)
  | lt (column : Str) (value : Str)
  | lte (column : Str) (value : Str)
  | like (column : Str) (value : Str)
  | lowerLike (column : Str) (value : Str)
  | and (es : List Expression)
  | or (es : List Expression)

/-- The Go model value bound on the statement: `reflect.TypeOf` yields a
pointer type, a struct type (carrying its field list), or something else. -/
inductive GoType where
  | ptr (elem : GoType)
  | structT (fields : List Field)
  | other

/-- The gorm query under construction. -/
structure DB where
  model : Option GoType
  conds : List Expression
  orders : List (Str × Bool)
  offset : Option Int
  limit : Option Int

/-- Model of `db.Where(e)`: gorm ANDs successive Where calls, so the query's
top-level predicate is the conjunction of `conds`. -/
def DB.addWhere (db : DB) (e : Expression) : DB :=
  { db with conds := db.conds ++ [e] }

/-- Model of `db.Order` with an OrderByColumn clause of column `col` and
direction `desc`. -/
def DB.addOrder (db : DB) (col : Str) (desc : Bool) : DB :=
  { db with orders := db.orders ++ [(col, desc)] }

/-- Bound query parameters (struct `queryParams`, src lines 19-27). -/
structure queryParams where
  Search : Str
  Filter : Str
  Page : Int
  PageSize : Int
  All : Bool
  OrderBy : Str
  OrderDirection : Str

def SEARCH : Nat := 1
def FILTER : Nat := 2
def PAGINATE : Nat := 4
def ORDER_BY : Nat := 8
def ALL : Nat := 15

def wSearchable : Str := "searchable".data
def wFilterable : Str := "filterable".data
def wParamMarker : Str := "param:".data
def wColumnMarker : Str := "column:".data
def wDesc : Str := "desc".data
def wAsc : Str := "asc".data
def wId : Str := "id".data

/-- Go's `getColumnNameForField`: the `column:` capture of the gorm tag, else
the field's name. -/
def getColumnNameForField (field : Field) : Str :=
  match findMarkerCapture wColumnMarker field.gormTag with
  | some c => c
  | none => field.name

/-- The exposed parameter name of a field: the `param:` capture of the filter
tag when declared, else the column name (src lines 94-99). -/
def fieldParamName (field : Field) : Str :=
  match findMarkerCapture wParamMarker field.filterTag with
  | some p => p
  | none => getColumnNameForField field

/-- Go's `searchField` (src lines 79-86): a `%phrase%` LIKE leaf for fields whose
filter tag contains `searchable`, nothing otherwise. -/
def searchField (field : Field) (phrase : Str) : Option Expression :=
  if containsStr field.filterTag wSearchable then
    some (.like (getColumnNameForField field) ('%' :: (phrase ++ ['%'])))
  else none

/-- Go's `filterField` (src lines 88-109): for a field whose filter tag contains
`filterable`, match the phrase against `<param>:(\w{1,}).*` and emit an
equality leaf on the captured value. -/
def filterField (field : Field) (phrase : Str) : Option Expression :=
  if !containsStr field.filterTag wFilterable then none
  else
    match findMarkerCapture (fieldParamName field ++ [':']) phrase with
    | some v => some (.eq (getColumnNameForField field) v)
    | none => none

/-- The loop of `expressionByField` (src lines 116-124): collect the non-nil
expressions the operator yields over the model's fields, in order. -/
def collectExpressions (op : Field → Str → Option Expression)
    (fields : List Field) (phrase : Str) : List Expression :=
  fields.filterMap (fun f => op f phrase)

/-- Go's `expressionByField` (src lines 111-131): one `Where` with the single
expression, or one `Where` with the predicate of all of them, or no-op. -/
def expressionByField (db : DB) (phrase : Str) (fields : List Field)
    (op : Field → Str → Option Expression)
    (pred : List Expression → Expression) : DB :=
  match collectExpressions op fields phrase with
  | [] => db
  | [e] => db.addWhere e
  | es => db.addWhere (pred es)

/-- Two's-complement wrap of Go's 64-bit `int` arithmetic
(`2 ^ 63 = 9223372036854775808`, `2 ^ 64 = 18446744073709551616`). -/
def wrap64 (n : Int) : Int :=
  (n + 9223372036854775808) % 18446744073709551616 - 9223372036854775808

/-- The page normalization of `paginate`: only an exact zero becomes 1
(src lines 55-57). -/
def normPage (p : Int) : Int :=
  if p = 0 then 1 else p

/-- The page-size switch of `paginate` (src lines 59-64): above 100 clamps to
100, non-positive becomes 10. -/
def clampPageSize (s : Int) : Int :=
  if s > 100 then 100 else if s ≤ 0 then 10 else s

/-- Go's `paginate` (src lines 50-68): pass-through when `all`, else
`db.Offset((page-1)*pageSize).Limit(pageSize)` after normalization. -/
def paginate (db : DB) (params : queryParams) : DB :=
  if params.All then db
  else
    { db with
      offset := some (wrap64 ((normPage params.Page - 1) * clampPageSize params.PageSize))
      limit := some (clampPageSize params.PageSize) }

/-- Go's `orderBy` (src lines 43-48). -/
def orderBy (db : DB) (params : queryParams) : DB :=
  db.addOrder params.OrderBy (params.OrderDirection == wDesc)

/-- The model check of `FilterByQuery` (src line 156): the bound model must be
non-nil, a pointer, and point at a struct; yields that struct's fields. -/
def matchModelFields : Option GoType → Option (List Field)
  | some (.ptr (.structT fields)) => some fields
  | _ => none

/-- The search/filter stage of `FilterByQuery` (src lines 154-163). -/
def condStage (config : Nat) (params : queryParams) (db : DB) : DB :=
  match matchModelFields db.model with
  | some fields =>
    let d1 := if 0 < config &&& SEARCH ∧ params.Search ≠ [] then
      expressionByField db params.Search fields searchField Expression.or else db
    if 0 < config &&& FILTER ∧ params.Filter ≠ [] then
      expressionByField d1 params.Filter fields filterField Expression.and else d1
  | none => db

/-- The ordering and pagination stages of `FilterByQuery` (src lines 165-170). -/
def afterStages (config : Nat) (params : queryParams) (db : DB) : DB :=
  let d1 := if 0 < config &&& ORDER_BY then orderBy db params else db
  if 0 < config &&& PAGINATE then paginate d1 params else d1

/-- Go's `FilterByQuery` (src lines 146-173).  Passing `bound = none` models a
`c.BindQuery` error, upon which the query is returned unmodified. -/
def FilterByQuery (bound : Option queryParams) (config : Nat) (db : DB) : DB :=
  match bound with
  | none => db
  | some params => afterStages config params (condStage config params db)

/-! The current repository's grammar, search and multi-filter stage.

The current versions of the filter-phrase parser (compound operators), the
case-insensitive search leaf and the repeatable `filter` parameter are not
under `src/` — only their test suite is — so they are modelled from the
spec. -/

/-- The filter-phrase operators, `<param>(:|!=|>=|<=|>|<|~)<value>`. -/
inductive FilterOp where
  | eqOp
  | neq
  | gte
  | lte
  | gt
  | lt
  | likeOp
  deriving Repr, DecidableEq

/-- The literal spelling of each operator. -/
def opChars : FilterOp → Str
  | .neq => '!' :: '=' :: []
  | .gte => '>' :: '=' :: []
  | .lte => '<' :: '=' :: []
  | .gt => ['>']
  | .lt => ['<']
  | .likeOp => ['~']
  | .eqOp => [':']

/-- Modelled from the spec: the operator scan of the operator grammar parser
(spec 4.2); the missing current `filterField` is the code it stands for.  The
operator set is tried in the strict order `!=, >=, <=, >, <, ~, :` (compound
two-character operators before their single-character prefixes, the
permissive colon last); the remainder after the operator is the literal
value, running to the end of the phrase. -/
def matchOperator (s : Str) : Option (FilterOp × Str) :=
  if strStarts s ('!' :: '=' :: []) then some (.neq, s.drop 2)
  else if strStarts s ('>' :: '=' :: []) then some (.gte, s.drop 2)
  else if strStarts s ('<' :: '=' :: []) then some (.lte, s.drop 2)
  else if strStarts s ['>'] then some (.gt, s.drop 1)
  else if strStarts s ['<'] then some (.lt, s.drop 1)
  else if strStarts s ['~'] then some (.likeOp, s.drop 1)
  else if strStarts s [':'] then some (.eqOp, s.drop 1)
  else none

/-- Modelled from the spec: `parse(phrase, paramName) -> (operator, value) |
absent` of the operator grammar parser (spec 4.2), standing for the current
`filterField`'s phrase match missing from `src/`.  The parameter name is
located as a prefix of the phrase, the remaining substring is scanned for an
operator, and `none` is the normal "phrase does not reference this
parameter" outcome. -/
def parseFilterPhrase (phrase param : Str) : Option (FilterOp × Str) :=
  if strStarts phrase param then matchOperator (phrase.drop param.length)
  else none

/-- The leaf expression for a parsed (column, operator, value) triple. -/
def exprOfOp : FilterOp → Str → Str → Expression
  | .eqOp, c, v => .eq c v
  | .neq, c, v => .neq c v
  | .gte, c, v => .gte c v
  | .lte, c, v => .lte c v
  | .gt, c, v => .gt c v
  | .lt, c, v => .lt c v
  | .likeOp, c, v => .like c v

/-- Modelled from the spec: the current `filterField` (missing from `src/`,
exercised by the operator tests in `src/gin-gorm-filter_test.go`): a field
is eligible only when its tag contains `filterable`; its exposed parameter
name (the `param:` override, else the column name) is parsed against the
phrase with the operator grammar. -/
def filterFieldCurrent (field : Field) (phrase : Str) : Option Expression :=
  if !containsStr field.filterTag wFilterable then none
  else
    match parseFilterPhrase phrase (fieldParamName field) with
    | some (op, v) => some (exprOfOp op (getColumnNameForField field) v)
    | none => none

/-- ASCII lowercasing, modelling `strings.ToLower` on the phrases at hand. -/
def toLowerStr (s : Str) : Str :=
  s.map Char.toLower

/-- Modelled from the spec: the current case-insensitive `searchField`
(missing from `src/`, exercised by `TestFiltersSearchable`): one
case-insensitive substring-match leaf `LOWER(column) LIKE %phrase%` per
searchable field. -/
def searchFieldCI (field : Field) (phrase : Str) : Option Expression :=
  if containsStr field.filterTag wSearchable then
    some (.lowerLike (getColumnNameForField field) ('%' :: (toLowerStr phrase ++ ['%'])))
  else none

/-- Bound query parameters of the current version: `filter` is repeatable
(`Filter []string`), one phrase per occurrence. -/
structure queryParamsM where
  Search : Str
  Filter : List Str
  Page : Int
  PageSize : Int
  All : Bool
  OrderBy : Str
  OrderDirection : Str

/-- Forgets the repeatable filter list (ordering/pagination read the rest). -/
def queryParamsM.base (p : queryParamsM) : queryParams :=
  { Search := p.Search, Filter := [], Page := p.Page, PageSize := p.PageSize,
    All := p.All, OrderBy := p.OrderBy, OrderDirection := p.OrderDirection }

/-- Modelled from the spec: the current search stage, one OR-composed `Where`
over the searchable fields (via the `expressionByField` loop of `src/`). -/
def applySearchPhrase (db : DB) (fields : List Field) (phrase : Str) : DB :=
  expressionByField db phrase fields searchFieldCI Expression.or

/-- Modelled from the spec: the current filter stage folds the repeated
`filter` phrases, one AND-composed `Where` per phrase, so the phrases
AND-compose across occurrences (spec 4.3). -/
def applyFilterPhrases (db : DB) (fields : List Field) (phrases : List Str) : DB :=
  phrases.foldl (fun d p => expressionByField d p fields filterFieldCurrent Expression.and) db

/-- Modelled from the spec: the current `FilterByQuery` with repeatable
filters and case-insensitive search; structure as in `src/` lines 146-173. -/
def FilterByQueryCurrent (bound : Option queryParamsM) (config : Nat) (db : DB) : DB :=
  match bound with
  | none => db
  | some params =>
    let d2 :=
      match matchModelFields db.model with
      | some fields =>
        let d1 := if 0 < config &&& SEARCH ∧ params.Search ≠ [] then
          applySearchPhrase db fields params.Search else db
        if 0 < config &&& FILTER then applyFilterPhrases d1 fields params.Filter else d1
      | none => db
    afterStages config params.base d2

/-! Row semantics of the emitted predicates. -/

/-- A database row, as the value each column name holds. -/
def Row := Str → Str

/-- Lexicographic comparison standing in for the executor's value ordering. -/
def cmpStr : Str → Str → Ordering
  | [], [] => .eq
  | [], _ :: _ => .lt
  | _ :: _, [] => .gt
  | a :: s, b :: t => if a < b then .lt else if b < a then .gt else cmpStr s t

/-- All suffixes of a string, longest first. -/
def suffixesStr : Str → List Str
  | [] => [[]]
  | a :: t => (a :: t) :: suffixesStr t

/-- SQL LIKE matching: `%` matches any run (some suffix of the subject
matches the rest of the pattern), `_` any single character. -/
def likeMatch : Str → Str → Bool
  | s, [] => s.isEmpty
  | s, '%' :: p => (suffixesStr s).any (fun t => likeMatch t p)
  | [], _ :: _ => false
  | a :: t, c :: p => (c == '_' || a == c) && likeMatch t p

mutual

/-- Truth of an expression at a row. -/
def evalExpr (row : Row) : Expression → Bool
  | .eq c v => row c == v
  | .neq c v => !(row c == v)
  | .gt c v => cmpStr (row c) v == Ordering.gt
  | .gte c v => !(cmpStr (row c) v == Ordering.lt)
  | .lt c v => cmpStr (row c) v == Ordering.lt
  | .lte c v => !(cmpStr (row c) v == Ordering.gt)
  | .like c v => likeMatch (row c) v
  | .lowerLike c v => likeMatch (toLowerStr (row c)) v
  | .and es => evalAllExpr row es
  | .or es => evalAnyExpr row es

/-- Conjunction over a composite's children. -/
def evalAllExpr (row : Row) : List Expression → Bool
  | [] => true
  | e :: t => evalExpr row e && evalAllExpr row t

/-- Disjunction over a composite's children. -/
def evalAnyExpr (row : Row) : List Expression → Bool
  | [] => false
  | e :: t => evalExpr row e || evalAnyExpr row t

end

/-- Truth of the query's top-level predicate: the conjunction of `conds`. -/
def evalConds (row : Row) (cs : List Expression) : Bool :=
  cs.all (evalExpr row)

/-- The top-level conjuncts `expressionByField` contributes for a collected
expression list: none, the expression itself, or one composite. -/
def conjunctsOf (es : List Expression) (pred : List Expression → Expression) : List Expression :=
  match es with
  | [] => []
  | [e] => [e]
  | es => [pred es]

/-- Truth of one filter phrase's contribution: every leaf the phrase matched
over the model's filterable fields. -/
def evalPhrasePredicate (row : Row) (fields : List Field) (p : Str) : Bool :=
  (collectExpressions filterFieldCurrent fields p).all (evalExpr row)

/-! Basic lemmas about the embedding. -/

theorem strStarts_append (a b : Str) : strStarts (a ++ b) a = true := by
  induction a with
  | nil => simp [strStarts]
  | cons c t ih => simp [strStarts, ih]

theorem strStarts_eq_append (s p : Str) (h : strStarts s p = true) :
    s = p ++ s.drop p.length := by
  induction p generalizing s with
  | nil => simp
  | cons b q ih =>
    cases s with
    | nil => simp [strStarts] at h
    | cons a t =>
      simp only [strStarts, Bool.and_eq_true, beq_iff_eq] at h
      obtain ⟨hab, ht⟩ := h
      subst hab
      simpa using ih t ht

theorem evalAllExpr_eq_all (row : Row) (es : List Expression) :
    evalAllExpr row es = es.all (evalExpr row) := by
  induction es with
  | nil => rfl
  | cons e t ih => simp [evalAllExpr, ih]

theorem evalAnyExpr_eq_any (row : Row) (es : List Expression) :
    evalAnyExpr row es = es.any (evalExpr row) := by
  induction es with
  | nil => rfl
  | cons e t ih => simp [evalAnyExpr, ih]

theorem expressionByField_conds (db : DB) (phrase : Str) (fields : List Field)
    (op : Field → Str → Option Expression) (pred : List Expression → Expression) :
    (expressionByField db phrase fields op pred).conds
      = db.conds ++ conjunctsOf (collectExpressions op fields phrase) pred := by
  rcases h : collectExpressions op fields phrase with _ | ⟨a, _ | ⟨b, t⟩⟩ <;>
    simp [expressionByField, h, conjunctsOf, DB.addWhere]

theorem expressionByField_orders (db : DB) (phrase : Str) (fields : List Field)
    (op : Field → Str → Option Expression) (pred : List Expression → Expression) :
    (expressionByField db phrase fields op pred).orders = db.orders := by
  rcases h : collectExpressions op fields phrase with _ | ⟨a, _ | ⟨b, t⟩⟩ <;>
    simp [expressionByField, h, DB.addWhere]

theorem expressionByField_offset (db : DB) (phrase : Str) (fields : List Field)
    (op : Field → Str → Option Expression) (pred : List Expression → Expression) :
    (expressionByField db phrase fields op pred).offset = db.offset := by
  rcases h : collectExpressions op fields phrase with _ | ⟨a, _ | ⟨b, t⟩⟩ <;>
    simp [expressionByField, h, DB.addWhere]

theorem expressionByField_limit (db : DB) (phrase : Str) (fields : List Field)
    (op : Field → Str → Option Expression) (pred : List Expression → Expression) :
    (expressionByField db phrase fields op pred).limit = db.limit := by
  rcases h : collectExpressions op fields phrase with _ | ⟨a, _ | ⟨b, t⟩⟩ <;>
    simp [expressionByField, h, DB.addWhere]

theorem orderBy_conds (db : DB) (params : queryParams) :
    (orderBy db params).conds = db.conds := rfl

theorem orderBy_orders (db : DB) (params : queryParams) :
    (orderBy db params).orders
      = db.orders ++ [(params.OrderBy, params.OrderDirection == wDesc)] := rfl

theorem paginate_conds (db : DB) (params : queryParams) :
    (paginate db params).conds = db.conds := by
  unfold paginate
  split <;> rfl

theorem paginate_orders (db : DB) (params : queryParams) :
    (paginate db params).orders = db.orders := by
  unfold paginate
  split <;> rfl

theorem afterStages_conds (config : Nat) (params : queryParams) (db : DB) :
    (afterStages config params db).conds = db.conds := by
  unfold afterStages
  by_cases h1 : 0 < config &&& ORDER_BY <;> by_cases h2 : 0 < config &&& PAGINATE <;>
    simp [h1, h2, paginate_conds, orderBy_conds]

theorem afterStages_orders (config : Nat) (params : queryParams) (db : DB) :
    (afterStages config params db).orders
      = db.orders ++ (if 0 < config &&& ORDER_BY then
          [(params.OrderBy, params.OrderDirection == wDesc)] else []) := by
  unfold afterStages
  by_cases h1 : 0 < config &&& ORDER_BY <;> by_cases h2 : 0 < config &&& PAGINATE <;>
    simp [h1, h2, paginate_orders, orderBy_orders]

theorem condStage_orders (config : Nat) (params : queryParams) (db : DB) :
    (condStage config params db).orders = db.orders := by
  unfold condStage
  rcases hm : matchModelFields db.model with _ | fields
  · rfl
  · by_cases h1 : 0 < config &&& SEARCH ∧ params.Search ≠ [] <;>
    by_cases h2 : 0 < config &&& FILTER ∧ params.Filter ≠ [] <;>
      simp [h1, h2, expressionByField_orders]

theorem evalConds_append (row : Row) (a b : List Expression) :
    evalConds row (a ++ b) = (evalConds row a && evalConds row b) := by
  simp [evalConds, List.all_append]

theorem evalConds_conjuncts_and (row : Row) (es : List Expression) :
    evalConds row (conjunctsOf es Expression.and) = es.all (evalExpr row) := by
  rcases es with _ | ⟨a, _ | ⟨b, t⟩⟩ <;>
    simp [conjunctsOf, evalConds, evalExpr, evalAllExpr_eq_all]

theorem evalConds_conjuncts_or (row : Row) (es : List Expression) (h : es ≠ []) :
    evalConds row (conjunctsOf es Expression.or) = es.any (evalExpr row) := by
  rcases es with _ | ⟨a, _ | ⟨b, t⟩⟩
  · exact absurd rfl h
  · simp [conjunctsOf, evalConds, evalExpr, evalAnyExpr_eq_any]
  · simp [conjunctsOf, evalConds, evalExpr, evalAnyExpr_eq_any]

theorem applyFilterPhrases_sem (row : Row) (fields : List Field) (phrases : List Str) :
    ∀ db : DB, evalConds row (applyFilterPhrases db fields phrases).conds
      = (evalConds row db.conds && phrases.all (evalPhrasePredicate row fields)) := by
  induction phrases with
  | nil => intro db; simp [applyFilterPhrases]
  | cons p ps ih =>
    intro db
    have h1 : applyFilterPhrases db fields (p :: ps)
        = applyFilterPhrases (expressionByField db p fields filterFieldCurrent Expression.and)
            fields ps := rfl
    rw [h1, ih, expressionByField_conds, evalConds_append, evalConds_conjuncts_and]
    simp [evalPhrasePredicate, Bool.and_assoc]

theorem collect_searchFieldCI (fields : List Field) (phrase : Str) :
    collectExpressions searchFieldCI fields phrase
      = (fields.filter (fun f => containsStr f.filterTag wSearchable)).map
          (fun f => Expression.lowerLike (getColumnNameForField f)
            ('%' :: (toLowerStr phrase ++ ['%']))) := by
  induction fields with
  | nil => rfl
  | cons f t ih =>
    by_cases h : containsStr f.filterTag wSearchable = true <;>
      simp [collectExpressions, List.filterMap_cons, searchFieldCI, h,
        List.filter_cons] at ih ⊢ <;> exact ih

theorem wrap64_eq_self (n : Int)
    (h1 : -9223372036854775808 ≤ n) (h2 : n < 9223372036854775808) :
    wrap64 n = n := by
  unfold wrap64
  omega

theorem clampPageSize_bounds (s : Int) :
    1 ≤ clampPageSize s ∧ clampPageSize s ≤ 100 := by
  unfold clampPageSize
  split_ifs <;> omega

theorem matchOperator_shape (s : Str) (op : FilterOp) (v : Str)
    (h : matchOperator s = some (op, v)) : s = opChars op ++ v := by
  unfold matchOperator at h
  split_ifs at h with h1 h2 h3 h4 h5 h6 h7
  · obtain ⟨ho, hv⟩ := Prod.mk.injEq .. ▸ Option.some.inj h
    subst ho; subst hv
    exact strStarts_eq_append _ _ h1
  · obtain ⟨ho, hv⟩ := Prod.mk.injEq .. ▸ Option.some.inj h
    subst ho; subst hv
    exact strStarts_eq_append _ _ h2
  · obtain ⟨ho, hv⟩ := Prod.mk.injEq .. ▸ Option.some.inj h
    subst ho; subst hv
    exact strStarts_eq_append _ _ h3
  · obtain ⟨ho, hv⟩ := Prod.mk.injEq .. ▸ Option.some.inj h
    subst ho; subst hv
    exact strStarts_eq_append _ _ h4
  · obtain ⟨ho, hv⟩ := Prod.mk.injEq .. ▸ Option.some.inj h
    subst ho; subst hv
    exact strStarts_eq_append _ _ h5
  · obtain ⟨ho, hv⟩ := Prod.mk.injEq .. ▸ Option.some.inj h
    subst ho; subst hv
    exact strStarts_eq_append _ _ h6
  · obtain ⟨ho, hv⟩ := Prod.mk.injEq .. ▸ Option.some.inj h
    subst ho; subst hv
    exact strStarts_eq_append _ _ h7

theorem matchOperator_no_gt_eq (s rest : Str) :
    matchOperator s ≠ some (.gt, '=' :: rest) := by
  intro h
  unfold matchOperator at h
  split_ifs at h with h1 h2 h3 h4 h5 h6 h7
  · exact FilterOp.noConfusion (congrArg Prod.fst (Option.some.inj h))
  · exact FilterOp.noConfusion (congrArg Prod.fst (Option.some.inj h))
  · exact FilterOp.noConfusion (congrArg Prod.fst (Option.some.inj h))
  · have hv : List.drop 1 s = '=' :: rest := congrArg Prod.snd (Option.some.inj h)
    have hs := strStarts_eq_append _ _ h4
    rw [show (['>'] : Str).length = 1 from rfl, hv] at hs
    rw [hs] at h2
    simp [strStarts] at h2
  · exact FilterOp.noConfusion (congrArg Prod.fst (Option.some.inj h))
  · exact FilterOp.noConfusion (congrArg Prod.fst (Option.some.inj h))
  · exact FilterOp.noConfusion (congrArg Prod.fst (Option.some.inj h))

theorem matchOperator_no_lt_eq (s rest : Str) :
    matchOperator s ≠ some (.lt, '=' :: rest) := by
  intro h
  unfold matchOperator at h
  split_ifs at h with h1 h2 h3 h4 h5 h6 h7
  · exact FilterOp.noConfusion (congrArg Prod.fst (Option.some.inj h))
  · exact FilterOp.noConfusion (congrArg Prod.fst (Option.some.inj h))
  · exact FilterOp.noConfusion (congrArg Prod.fst (Option.some.inj h))
  · exact FilterOp.noConfusion (congrArg Prod.fst (Option.some.inj h))
  · have hv : List.drop 1 s = '=' :: rest := congrArg Prod.snd (Option.some.inj h)
    have hs := strStarts_eq_append _ _ h5
    rw [show (['<'] : Str).length = 1 from rfl, hv] at hs
    rw [hs] at h3
    simp [strStarts] at h3
  · exact FilterOp.noConfusion (congrArg Prod.fst (Option.some.inj h))
  · exact FilterOp.noConfusion (congrArg Prod.fst (Option.some.inj h))

theorem parse_no_gt_eq (phrase param rest : Str) :
    parseFilterPhrase phrase param ≠ some (.gt, '=' :: rest) := by
  unfold parseFilterPhrase
  split_ifs
  · exact matchOperator_no_gt_eq _ _
  · simp

theorem parse_no_lt_eq (phrase param rest : Str) :
    parseFilterPhrase phrase param ≠ some (.lt, '=' :: rest) := by
  unfold parseFilterPhrase
  split_ifs
  · exact matchOperator_no_lt_eq _ _
  · simp

/-! Concrete model of the test suite (the `User` struct of
src/gin-gorm-filter_test.go). -/

def idField : Field :=
  { name := "Id".data, gormTag := [], filterTag := "param:id;filterable".data }

def usernameField : Field :=
  { name := "Username".data, gormTag := "uniqueIndex".data,
    filterTag := "param:login;searchable;filterable".data }

def fullNameField : Field :=
  { name := "FullName".data, gormTag := [], filterTag := "param:name;searchable".data }

def emailField : Field :=
  { name := "Email".data, gormTag := [], filterTag := "filterable".data }

def passwordField : Field :=
  { name := "Password".data, gormTag := [], filterTag := [] }

def userFields : List Field :=
  [idField, usernameField, fullNameField, emailField, passwordField]

def dbUser : DB :=
  { model := some (.ptr (.structT userFields)), conds := [], orders := [],
    offset := none, limit := none }

def dbNoModel : DB :=
  { model := none, conds := [], orders := [], offset := none, limit := none }

def rowJohn : Row := fun c =>
  if c = "Username".data then "sampleUser".data
  else if c = "FullName".data then "John Smith".data
  else if c = "Id".data then "7".data
  else []

/-! Claims. -/

/-- C1: a field whose filter tag does not declare the matching capability
(`searchable` for search, `filterable` for filter) never contributes a leaf
to any emitted search or filter predicate: the leaf builders return nothing
for it, and both the collected expression list and the emitted `Where`
conjuncts are unchanged by the field's presence in the model, so filtering
or searching on an undeclared parameter name is a no-op for that field. -/
theorem untagged_field_contributes_no_leaf (f : Field) (phrase : Str)
    (pre post : List Field) (db : DB) (pred : List Expression → Expression) :
    (containsStr f.filterTag wSearchable = false →
      searchField f phrase = none
      ∧ collectExpressions searchField (pre ++ f :: post) phrase
          = collectExpressions searchField (pre ++ post) phrase
      ∧ (expressionByField db phrase (pre ++ f :: post) searchField pred).conds
          = (expressionByField db phrase (pre ++ post) searchField pred).conds)
  ∧ (containsStr f.filterTag wFilterable = false →
      filterField f phrase = none
      ∧ collectExpressions filterField (pre ++ f :: post) phrase
          = collectExpressions filterField (pre ++ post) phrase
      ∧ (expressionByField db phrase (pre ++ f :: post) filterField pred).conds
          = (expressionByField db phrase (pre ++ post) filterField pred).conds) := by
  constructor
  · intro h
    have hn : searchField f phrase = none := by simp [searchField, h]
    have hc : collectExpressions searchField (pre ++ f :: post) phrase
        = collectExpressions searchField (pre ++ post) phrase := by
      simp [collectExpressions, List.filterMap_append, List.filterMap_cons, hn]
    exact ⟨hn, hc, by rw [expressionByField_conds, expressionByField_conds, hc]⟩
  · intro h
    have hn : filterField f phrase = none := by simp [filterField, h]
    have hc : collectExpressions filterField (pre ++ f :: post) phrase
        = collectExpressions filterField (pre ++ post) phrase := by
      simp [collectExpressions, List.filterMap_append, List.filterMap_cons, hn]
    exact ⟨hn, hc, by rw [expressionByField_conds, expressionByField_conds, hc]⟩

/-- Witness for C1 at the untagged `Password` field of the test model. -/
theorem untagged_field_contributes_no_leaf_witness :
    (containsStr passwordField.filterTag wSearchable = false
      ∧ searchField passwordField ("John".data) = none)
  ∧ (containsStr passwordField.filterTag wFilterable = false
      ∧ filterField passwordField ("password:samplePassword".data) = none
      ∧ collectExpressions filterField
          ([idField, usernameField, fullNameField, emailField] ++ passwordField :: [])
          ("password:samplePassword".data)
        = collectExpressions filterField
            ([idField, usernameField, fullNameField, emailField] ++ [])
            ("password:samplePassword".data)) := by
  refine ⟨⟨by decide, ?_⟩, by decide, ?_, ?_⟩
  · exact ((untagged_field_contributes_no_leaf passwordField ("John".data)
      [] [] dbUser Expression.or).1 (by decide)).1
  · exact ((untagged_field_contributes_no_leaf passwordField
      ("password:samplePassword".data) [idField, usernameField, fullNameField, emailField]
      [] dbUser Expression.and).2 (by decide)).1
  · exact ((untagged_field_contributes_no_leaf passwordField
      ("password:samplePassword".data) [idField, usernameField, fullNameField, emailField]
      [] dbUser Expression.and).2 (by decide)).2.1

/-- C2: the operator grammar tries compound two-character operators before
their single-character prefixes: `param>=v` always parses to `≥` with value
`v` (likewise `<=` and `!=`), a `>` or `<` parse never carries a value that
starts with `=`, and concretely `id>=5` parses to `(≥, 5)`, never
`(>, =5)`. -/
theorem compound_operator_precedence :
    (∀ param v : Str,
        parseFilterPhrase (param ++ ('>' :: '=' :: v)) param = some (.gte, v)
      ∧ parseFilterPhrase (param ++ ('<' :: '=' :: v)) param = some (.lte, v)
      ∧ parseFilterPhrase (param ++ ('!' :: '=' :: v)) param = some (.neq, v))
  ∧ (∀ phrase param rest : Str,
        parseFilterPhrase phrase param ≠ some (.gt, '=' :: rest)
      ∧ parseFilterPhrase phrase param ≠ some (.lt, '=' :: rest))
  ∧ parseFilterPhrase ("id>=5".data) ("id".data) = some (.gte, "5".data) := by
  refine ⟨fun param v => ⟨?_, ?_, ?_⟩, fun phrase param rest => ⟨?_, ?_⟩, by decide⟩
  · simp [parseFilterPhrase, strStarts_append, List.drop_left, matchOperator, strStarts]
  · simp [parseFilterPhrase, strStarts_append, List.drop_left, matchOperator, strStarts]
  · simp [parseFilterPhrase, strStarts_append, List.drop_left, matchOperator, strStarts]
  · exact parse_no_gt_eq phrase param rest
  · exact parse_no_lt_eq phrase param rest

/-- Witness for C2: the concrete parses behind the claim's example. -/
theorem compound_operator_precedence_witness :
    parseFilterPhrase ("id>=5".data) ("id".data) = some (.gte, "5".data)
  ∧ parseFilterPhrase ("id<=200".data) ("id".data) = some (.lte, "200".data)
  ∧ parseFilterPhrase ("id>=5".data) ("id".data) ≠ some (.gt, '=' :: "5".data) := by
  refine ⟨compound_operator_precedence.2.2, ?_, (compound_operator_precedence.2.1 _ _ _).1⟩
  have h := (compound_operator_precedence.1 ("id".data) ("200".data)).2.1
  simpa using h

/-- C7: the parsed literal value is the entire remainder of the phrase after
the operator: any successful parse decomposes the phrase as
`param ++ operator ++ value`, whatever characters the value holds. -/
theorem filter_value_runs_to_end (phrase param : Str) (op : FilterOp) (v : Str)
    (h : parseFilterPhrase phrase param = some (op, v)) :
    phrase = param ++ opChars op ++ v := by
  unfold parseFilterPhrase at h
  split_ifs at h with hs
  calc phrase = param ++ phrase.drop param.length := strStarts_eq_append phrase param hs
    _ = param ++ (opChars op ++ v) := by rw [matchOperator_shape _ _ _ h]
    _ = param ++ opChars op ++ v := by rw [List.append_assoc]

/-- Witness for C7 at a value with non-word characters, `@` and `.`. -/
theorem filter_value_runs_to_end_witness :
    parseFilterPhrase ("email:john@example.com".data) ("email".data)
      = some (.eqOp, "john@example.com".data)
  ∧ "email:john@example.com".data
      = "email".data ++ opChars .eqOp ++ "john@example.com".data :=
  ⟨by decide, filter_value_runs_to_end _ _ _ _ (by decide)⟩

/-- C9: with `all=true`, `paginate` returns the query unchanged: no limit and
no offset are applied, whatever `page` and `page_size` hold. -/
theorem all_true_pagination_passthrough (db : DB) (params : queryParams)
    (h : params.All = true) :
    paginate db params = db := by
  simp [paginate, h]

def allTrueParams : queryParams :=
  { Search := [], Filter := [], Page := -7, PageSize := 5000, All := true,
    OrderBy := wId, OrderDirection := wDesc }

/-- Witness for C9 at extreme page values. -/
theorem all_true_pagination_passthrough_witness :
    allTrueParams.All = true ∧ paginate dbUser allTrueParams = dbUser :=
  ⟨rfl, all_true_pagination_passthrough dbUser allTrueParams rfl⟩

def negPageParams : queryParams :=
  { Search := [], Filter := [], Page := -1, PageSize := 10, All := false,
    OrderBy := wId, OrderDirection := wDesc }

/-- C6 counterexample: with `page = -1` (which is ≤ 0) and `page_size = 10`,
`paginate` does not normalize the page to 1: the applied offset is -20, not
`(1-1)*10 = 0`, because the source rewrites only an exact zero page. -/
theorem paginate_negative_page_counterexample :
    (paginate dbUser negPageParams).offset = some (-20)
  ∧ (paginate dbUser negPageParams).offset ≠ some ((1 - 1) * 10) := by
  constructor
  · decide
  · decide

/-- C6 amended: with pagination active (`all=false`), `page_size > 100`
clamps to 100, `page_size ≤ 0` becomes 10, sizes in `[1,100]` pass through,
a page of exactly 0 becomes 1 while negative pages are used as-is, and the
applied offset is the wrapped 64-bit value of `(page'-1)*size'` over the
normalized values — equal to the exact `(page'-1)*size'` for positive pages
up to `2^31`. -/
theorem paginate_clamping_amended (db : DB) (params : queryParams)
    (h : params.All = false) :
    (paginate db params).limit = some (clampPageSize params.PageSize)
  ∧ (paginate db params).offset
      = some (wrap64 ((normPage params.Page - 1) * clampPageSize params.PageSize))
  ∧ (params.PageSize > 100 → clampPageSize params.PageSize = 100)
  ∧ (params.PageSize ≤ 0 → clampPageSize params.PageSize = 10)
  ∧ (1 ≤ params.PageSize → params.PageSize ≤ 100 →
      clampPageSize params.PageSize = params.PageSize)
  ∧ normPage 0 = 1
  ∧ (params.Page < 0 → normPage params.Page = params.Page)
  ∧ (1 ≤ params.Page → params.Page ≤ 2 ^ 31 →
      wrap64 ((normPage params.Page - 1) * clampPageSize params.PageSize)
        = (params.Page - 1) * clampPageSize params.PageSize) := by
  refine ⟨by simp [paginate, h], by simp [paginate, h], ?_, ?_, ?_, by decide, ?_, ?_⟩
  · intro hs; unfold clampPageSize; split_ifs
    all_goals omega
  · intro hs; unfold clampPageSize; split_ifs
    all_goals omega
  · intro hs1 hs2; unfold clampPageSize; split_ifs
    all_goals omega
  · intro hp; unfold normPage; split_ifs <;> omega
  · intro hp1 hp2
    have hb := clampPageSize_bounds params.PageSize
    have hn : normPage params.Page = params.Page := by
      unfold normPage; split_ifs <;> omega
    rw [hn]
    norm_num at hp2
    have h1a : (0 : Int) ≤ params.Page - 1 := by omega
    have h1b : (0 : Int) ≤ clampPageSize params.PageSize := by omega
    have h2a : params.Page - 1 ≤ 2147483647 := by omega
    have hnn := mul_nonneg h1a h1b
    have hub : (params.Page - 1) * clampPageSize params.PageSize
        ≤ 2147483647 * 100 :=
      mul_le_mul h2a hb.2 h1b (by norm_num)
    exact wrap64_eq_self _ (by omega) (by omega)

def page3Params : queryParams :=
  { Search := [], Filter := [], Page := 3, PageSize := 250, All := false,
    OrderBy := wId, OrderDirection := wDesc }

/-- Witness for C6's amended claim at `page=3`, `page_size=250`. -/
theorem paginate_clamping_amended_witness :
    page3Params.All = false
  ∧ (paginate dbUser page3Params).limit = some (clampPageSize 250)
  ∧ clampPageSize 250 = 100 :=
  ⟨rfl, (paginate_clamping_amended dbUser page3Params rfl).1,
    (paginate_clamping_amended dbUser page3Params rfl).2.2.1 (by decide)⟩

/-- C5: when the bound model is absent or is not a pointer to a struct, the
search and filter stages are skipped while the ordering and pagination
stages still run per their config bits; a query-binding failure returns the
base query, and the scope never aborts query construction. -/
theorem model_resolution_failure_skips_filter_search
    (params : queryParams) (config : Nat) (db : DB)
    (hm : matchModelFields db.model = none) :
    FilterByQuery (some params) config db = afterStages config params db
  ∧ (FilterByQuery (some params) config db).conds = db.conds
  ∧ (∀ d : DB, FilterByQuery none config d = d) := by
  have h1 : FilterByQuery (some params) config db = afterStages config params db := by
    simp [FilterByQuery, condStage, hm]
  exact ⟨h1, by rw [h1, afterStages_conds], fun d => rfl⟩

def paramsPlain : queryParams :=
  { Search := "John".data, Filter := "login:sampleUser".data, Page := 1,
    PageSize := 10, All := false, OrderBy := wId, OrderDirection := wDesc }

/-- Witness for C5 at a query with no bound model and all stages enabled. -/
theorem model_resolution_failure_skips_filter_search_witness :
    matchModelFields dbNoModel.model = none
  ∧ FilterByQuery (some paramsPlain) ALL dbNoModel
      = afterStages ALL paramsPlain dbNoModel
  ∧ (FilterByQuery (some paramsPlain) ALL dbNoModel).conds = dbNoModel.conds
  ∧ FilterByQuery none ALL dbNoModel = dbNoModel :=
  ⟨rfl,
    (model_resolution_failure_skips_filter_search paramsPlain ALL dbNoModel rfl).1,
    (model_resolution_failure_skips_filter_search paramsPlain ALL dbNoModel rfl).2.1,
    (model_resolution_failure_skips_filter_search paramsPlain ALL dbNoModel rfl).2.2
      dbNoModel⟩

theorem conjunctsOf_or_singleton (row : Row) (es : List Expression) (h : es ≠ []) :
    ∃ g, conjunctsOf es Expression.or = [g]
      ∧ evalExpr row g = es.any (evalExpr row) := by
  rcases es with _ | ⟨a, _ | ⟨b, t⟩⟩
  · exact absurd rfl h
  · exact ⟨a, rfl, by simp⟩
  · exact ⟨Expression.or (a :: b :: t), rfl, by simp [evalExpr, evalAnyExpr_eq_any]⟩

theorem conjunctsOf_and_singleton (row : Row) (es : List Expression) (h : es ≠ []) :
    ∃ g, conjunctsOf es Expression.and = [g]
      ∧ evalExpr row g = es.all (evalExpr row) := by
  rcases es with _ | ⟨a, _ | ⟨b, t⟩⟩
  · exact absurd rfl h
  · exact ⟨a, rfl, by simp⟩
  · exact ⟨Expression.and (a :: b :: t), rfl, by simp [evalExpr, evalAllExpr_eq_all]⟩

theorem afterStages_id_of_bits (config : Nat) (params : queryParams) (db : DB)
    (h1 : ¬ 0 < config &&& ORDER_BY) (h2 : ¬ 0 < config &&& PAGINATE) :
    afterStages config params db = db := by
  unfold afterStages
  rw [if_neg h1, if_neg h2]

/-- C3: with the repeatable `filter` parameter, the emitted predicate is the
AND (intersection) of the individual phrases' predicates: on a resolvable
model, enabling `FILTER` with phrases `p1` and `p2` yields a top-level
predicate that holds at a row exactly when the base conditions, every leaf
of `p1`, and every leaf of `p2` all hold. -/
theorem multi_filter_and_composition (db : DB) (fields : List Field)
    (params : queryParamsM) (p1 p2 : Str) (row : Row)
    (hm : matchModelFields db.model = some fields)
    (hf : params.Filter = [p1, p2]) :
    evalConds row (FilterByQueryCurrent (some params) FILTER db).conds
      = (evalConds row db.conds
          && evalPhrasePredicate row fields p1
          && evalPhrasePredicate row fields p2) := by
  have hs : ¬ (0 < FILTER &&& SEARCH ∧ params.Search ≠ []) := by
    intro hcon
    exact absurd hcon.1 (by decide)
  simp only [FilterByQueryCurrent, hm]
  rw [if_neg hs, if_pos (by decide : 0 < FILTER &&& FILTER), afterStages_conds, hf,
    applyFilterPhrases_sem]
  simp [Bool.and_assoc]

def paramsMFilters : queryParamsM :=
  { Search := [], Filter := [ "login:sampleUser".data , "id:7".data ], Page := 1,
    PageSize := 10, All := false, OrderBy := wId, OrderDirection := wDesc }

/-- Witness for C3 at two concrete phrases over the test model. -/
theorem multi_filter_and_composition_witness :
    matchModelFields dbUser.model = some userFields
  ∧ paramsMFilters.Filter = [ "login:sampleUser".data , "id:7".data ]
  ∧ evalConds rowJohn (FilterByQueryCurrent (some paramsMFilters) FILTER dbUser).conds
      = (evalConds rowJohn dbUser.conds
          && evalPhrasePredicate rowJohn userFields ("login:sampleUser".data)
          && evalPhrasePredicate rowJohn userFields ("id:7".data)) :=
  ⟨rfl, rfl,
    multi_filter_and_composition dbUser userFields paramsMFilters _ _ rowJohn rfl rfl⟩

/-- C4: the search stage emits exactly one case-insensitive LIKE leaf per
searchable field, OR-composed into a single `Where` conjunct holding at a
row exactly when some leaf does; an empty phrase or a model without
searchable fields leaves the query untouched. -/
theorem search_or_composition (db : DB) (fields : List Field)
    (params : queryParamsM) (row : Row)
    (hm : matchModelFields db.model = some fields) :
    collectExpressions searchFieldCI fields params.Search
        = (fields.filter (fun f => containsStr f.filterTag wSearchable)).map
            (fun f => Expression.lowerLike (getColumnNameForField f)
              ('%' :: (toLowerStr params.Search ++ ['%'])))
  ∧ (params.Search ≠ [] →
      (collectExpressions searchFieldCI fields params.Search).isEmpty = false →
      evalConds row (FilterByQueryCurrent (some params) SEARCH db).conds
        = (evalConds row db.conds
            && (collectExpressions searchFieldCI fields params.Search).any (evalExpr row)))
  ∧ (params.Search = [] → FilterByQueryCurrent (some params) SEARCH db = db)
  ∧ ((collectExpressions searchFieldCI fields params.Search).isEmpty = true →
      FilterByQueryCurrent (some params) SEARCH db = db) := by
  refine ⟨collect_searchFieldCI fields params.Search, ?_, ?_, ?_⟩
  · intro h1 h2
    have hne : collectExpressions searchFieldCI fields params.Search ≠ [] := by
      intro hh
      rw [hh] at h2
      simp at h2
    simp only [FilterByQueryCurrent, hm]
    rw [if_neg (by decide : ¬ 0 < SEARCH &&& FILTER),
      if_pos (show 0 < SEARCH &&& SEARCH ∧ params.Search ≠ [] from ⟨by decide, h1⟩),
      afterStages_conds]
    unfold applySearchPhrase
    rw [expressionByField_conds, evalConds_append, evalConds_conjuncts_or _ _ hne]
  · intro h1
    have hs : ¬ (0 < SEARCH &&& SEARCH ∧ params.Search ≠ []) := by
      intro hcon
      exact hcon.2 h1
    simp only [FilterByQueryCurrent, hm]
    rw [if_neg hs, if_neg (by decide : ¬ 0 < SEARCH &&& FILTER)]
    exact afterStages_id_of_bits _ _ _ (by decide) (by decide)
  · intro h1
    have hcol : collectExpressions searchFieldCI fields params.Search = [] := by
      cases hh : collectExpressions searchFieldCI fields params.Search with
      | nil => rfl
      | cons a t => rw [hh] at h1; simp at h1
    have hsp : applySearchPhrase db fields params.Search = db := by
      unfold applySearchPhrase expressionByField
      rw [hcol]
    simp only [FilterByQueryCurrent, hm]
    by_cases hs : 0 < SEARCH &&& SEARCH ∧ params.Search ≠ []
    · rw [if_pos hs, hsp, if_neg (by decide : ¬ 0 < SEARCH &&& FILTER)]
      exact afterStages_id_of_bits _ _ _ (by decide) (by decide)
    · rw [if_neg hs, if_neg (by decide : ¬ 0 < SEARCH &&& FILTER)]
      exact afterStages_id_of_bits _ _ _ (by decide) (by decide)

def paramsMJohn : queryParamsM :=
  { Search := "John".data, Filter := [], Page := 1, PageSize := 10, All := false,
    OrderBy := wId, OrderDirection := wDesc }

/-- Witness for C4 at `search=John` over the test model (two searchable
fields). -/
theorem search_or_composition_witness :
    matchModelFields dbUser.model = some userFields
  ∧ paramsMJohn.Search ≠ []
  ∧ (collectExpressions searchFieldCI userFields paramsMJohn.Search).isEmpty = false
  ∧ evalConds rowJohn (FilterByQueryCurrent (some paramsMJohn) SEARCH dbUser).conds
      = (evalConds rowJohn dbUser.conds
          && (collectExpressions searchFieldCI userFields paramsMJohn.Search).any
              (evalExpr rowJohn)) :=
  ⟨rfl, by decide, by decide,
    (search_or_composition dbUser userFields paramsMJohn rowJohn rfl).2.1
      (by decide) (by decide)⟩

/-- C8: with both `SEARCH` and `FILTER` bits enabled, a non-empty search
phrase matching at least one searchable field, and a filter phrase matching
at least one filterable field, the top-level predicate is the conjunction of
the OR-composed search group and the AND-composed filter group. -/
theorem search_and_filter_top_level_and (db : DB) (fields : List Field)
    (params : queryParams) (config : Nat) (row : Row)
    (hm : matchModelFields db.model = some fields)
    (hcs : 0 < config &&& SEARCH) (hcf : 0 < config &&& FILTER)
    (hps : params.Search ≠ []) (hpf : params.Filter ≠ [])
    (hns : (collectExpressions searchField fields params.Search).isEmpty = false)
    (hnf : (collectExpressions filterField fields params.Filter).isEmpty = false) :
    evalConds row (FilterByQuery (some params) config db).conds
      = (evalConds row db.conds
          && (collectExpressions searchField fields params.Search).any (evalExpr row)
          && (collectExpressions filterField fields params.Filter).all (evalExpr row))
  ∧ ∃ sg fg, (FilterByQuery (some params) config db).conds = db.conds ++ [sg, fg]
      ∧ evalExpr row sg
          = (collectExpressions searchField fields params.Search).any (evalExpr row)
      ∧ evalExpr row fg
          = (collectExpressions filterField fields params.Filter).all (evalExpr row) := by
  have hne : collectExpressions searchField fields params.Search ≠ [] := by
    intro hh
    rw [hh] at hns
    simp at hns
  have hnef : collectExpressions filterField fields params.Filter ≠ [] := by
    intro hh
    rw [hh] at hnf
    simp at hnf
  have hconds : (FilterByQuery (some params) config db).conds
      = db.conds ++ conjunctsOf (collectExpressions searchField fields params.Search)
          Expression.or
        ++ conjunctsOf (collectExpressions filterField fields params.Filter)
          Expression.and := by
    simp only [FilterByQuery, condStage, hm]
    rw [if_pos (show 0 < config &&& FILTER ∧ params.Filter ≠ [] from ⟨hcf, hpf⟩),
      if_pos (show 0 < config &&& SEARCH ∧ params.Search ≠ [] from ⟨hcs, hps⟩),
      afterStages_conds, expressionByField_conds, expressionByField_conds]
  constructor
  · rw [hconds, evalConds_append, evalConds_append,
      evalConds_conjuncts_or _ _ hne, evalConds_conjuncts_and]
  · obtain ⟨sg, hsg, hsge⟩ := conjunctsOf_or_singleton row _ hne
    obtain ⟨fg, hfg, hfge⟩ := conjunctsOf_and_singleton row _ hnef
    refine ⟨sg, fg, ?_, hsge, hfge⟩
    rw [hconds, hsg, hfg, List.append_assoc]
    rfl

/-- Witness for C8 at `search=John&filter=login:sampleUser` over the test
model, all config bits set. -/
theorem search_and_filter_top_level_and_witness :
    matchModelFields dbUser.model = some userFields
  ∧ paramsPlain.Search ≠ [] ∧ paramsPlain.Filter ≠ []
  ∧ (collectExpressions searchField userFields paramsPlain.Search).isEmpty = false
  ∧ (collectExpressions filterField userFields paramsPlain.Filter).isEmpty = false
  ∧ evalConds rowJohn (FilterByQuery (some paramsPlain) ALL dbUser).conds
      = (evalConds rowJohn dbUser.conds
          && (collectExpressions searchField userFields paramsPlain.Search).any
              (evalExpr rowJohn)
          && (collectExpressions filterField userFields paramsPlain.Filter).all
              (evalExpr rowJohn)) :=
  ⟨rfl, by decide, by decide, by decide, by decide,
    (search_and_filter_top_level_and dbUser userFields paramsPlain ALL rowJohn rfl
      (by decide) (by decide) (by decide) (by decide) (by decide) (by decide)).1⟩

/-! Model of gin's query binding (`c.BindQuery`) per the `form` tags at
src lines 19-27. -/

def wSearchKey : Str := "search".data
def wFilterKey : Str := "filter".data
def wPageKey : Str := "page".data
def wPageSizeKey : Str := "page_size".data
def wAllKey : Str := "all".data
def wOrderByKey : Str := "order_by".data
def wOrderDirKey : Str := "order_direction".data

/-- First value bound to a key in the raw query (gin binds a non-slice field
from the first occurrence). -/
def lookupQ (query : List (Str × Str)) (key : Str) : Option Str :=
  match query.find? (fun kv => kv.1 == key) with
  | some kv => some kv.2
  | none => none

/-- Gin's per-field form lookup: the declared default stands in when the key
is absent or its value is empty. -/
def rawParam (query : List (Str × Str)) (key dflt : Str) : Str :=
  match lookupQ query key with
  | none => dflt
  | some v => if v.isEmpty then dflt else v

def decDigits (s : Str) : Option Nat :=
  if s.isEmpty then none
  else if s.all (fun c => c.isDigit) then
    some (s.foldl (fun n c => 10 * n + (c.toNat - 48)) 0)
  else none

/-- Model of `strconv.ParseInt` base 10: optional sign, decimal digits, 64-bit
range check. -/
def parseIntGo (s : Str) : Option Int :=
  match s with
  | '+' :: t => (decDigits t).bind (fun n =>
      if (n : Int) ≤ 9223372036854775807 then some ((n : Int)) else none)
  | '-' :: t => (decDigits t).bind (fun n =>
      if (n : Int) ≤ 9223372036854775808 then some (-(n : Int)) else none)
  | _ => (decDigits s).bind (fun n =>
      if (n : Int) ≤ 9223372036854775807 then some ((n : Int)) else none)

/-- Model of `strconv.ParseBool`. -/
def parseBoolGo (s : Str) : Option Bool :=
  if s = "1".data ∨ s = "t".data ∨ s = "T".data ∨ s = "true".data
      ∨ s = "TRUE".data ∨ s = "True".data then some true
  else if s = "0".data ∨ s = "f".data ∨ s = "F".data ∨ s = "false".data
      ∨ s = "FALSE".data ∨ s = "False".data then some false
  else none

/-- Model of `c.BindQuery(&params)` over the raw query pairs, per the `form`
tags of `queryParams` (src lines 19-27): strings bind with their declared
defaults (`order_by` ↦ `id`, `order_direction` ↦ `desc`), ints and bools
parse with gin's empty-value/default handling, and any parse failure fails
the whole binding.  The `oneof` fragment inside the `order_direction` form
tag is not an option gin's form binding enforces, so no value is rejected
for it. -/
def bindQueryModel (query : List (Str × Str)) : Option queryParams :=
  match parseIntGo (rawParam query wPageKey ("1".data)),
      parseIntGo (rawParam query wPageSizeKey ("10".data)),
      parseBoolGo (rawParam query wAllKey ("false".data)) with
  | some page, some pageSize, some all =>
    some { Search := rawParam query wSearchKey [], Filter := rawParam query wFilterKey [],
           Page := page, PageSize := pageSize, All := all,
           OrderBy := rawParam query wOrderByKey wId,
           OrderDirection := rawParam query wOrderDirKey wDesc }
  | _, _, _ => none

theorem bindQueryModel_order_fields (query : List (Str × Str)) (params : queryParams)
    (hb : bindQueryModel query = some params) :
    params.OrderBy = rawParam query wOrderByKey wId
    ∧ params.OrderDirection = rawParam query wOrderDirKey wDesc := by
  unfold bindQueryModel at hb
  split at hb
  · obtain rfl := Option.some.inj hb
    exact ⟨rfl, rfl⟩
  · exact Option.noConfusion hb

/-- C10: whenever the `ORDER_BY` bit is set and binding succeeds, ordering
appends exactly the caller-supplied `order_by` string as the column name,
against any query — bound model or not, tagged column or not; the bound
default is `id` (and `desc`), and over the declared direction domain the
sort is descending exactly when `order_direction` is not `asc`. -/
theorem order_by_applied_unvalidated (query : List (Str × Str))
    (params : queryParams) (db : DB) (config : Nat)
    (hb : bindQueryModel query = some params)
    (hc : 0 < config &&& ORDER_BY) :
    (FilterByQuery (some params) config db).orders
        = db.orders ++ [(params.OrderBy, params.OrderDirection == wDesc)]
  ∧ (lookupQ query wOrderByKey = none → params.OrderBy = wId)
  ∧ (lookupQ query wOrderDirKey = none → params.OrderDirection = wDesc)
  ∧ ((params.OrderDirection = wDesc ∨ params.OrderDirection = wAsc) →
      (params.OrderDirection == wDesc) = !(params.OrderDirection == wAsc)) := by
  refine ⟨?_, ?_, ?_, ?_⟩
  · show (afterStages config params (condStage config params db)).orders = _
    rw [afterStages_orders, condStage_orders, if_pos hc]
  · intro hlook
    rw [(bindQueryModel_order_fields query params hb).1]
    unfold rawParam
    rw [hlook]
  · intro hlook
    rw [(bindQueryModel_order_fields query params hb).2]
    unfold rawParam
    rw [hlook]
  · rintro (hd | hd) <;> rw [hd] <;> decide

def orderQueryW : List (Str × Str) :=
  [ ("order_by".data, "Password".data), ("order_direction".data, "asc".data) ]

def paramsOrderW : queryParams :=
  { Search := [], Filter := [], Page := 1, PageSize := 10, All := false,
    OrderBy := "Password".data, OrderDirection := wAsc }

/-- Witness for C10: ordering by the untagged `Password` column on a query
with no bound model, ascending because `order_direction=asc`. -/
theorem order_by_applied_unvalidated_witness :
    bindQueryModel orderQueryW = some paramsOrderW
  ∧ 0 < ORDER_BY &&& ORDER_BY
  ∧ (FilterByQuery (some paramsOrderW) ORDER_BY dbNoModel).orders
      = dbNoModel.orders ++ [(paramsOrderW.OrderBy, paramsOrderW.OrderDirection == wDesc)]
  ∧ (paramsOrderW.OrderDirection == wDesc) = !(paramsOrderW.OrderDirection == wAsc) :=
  ⟨rfl, by decide,
    (order_by_applied_unvalidated orderQueryW paramsOrderW dbNoModel ORDER_BY rfl
      (by decide)).1,
    (order_by_applied_unvalidated orderQueryW paramsOrderW dbNoModel ORDER_BY rfl
      (by decide)).2.2.2 (Or.inr rfl)⟩

end GinGormFilter
